import Mathlib

/-!
Shallow embedding of the HyllaDB hierarchical key-value store from
`src/vertix/db/hylladb/hylla_db.py` and `src/vertix/db/hylladb/hylla_utilities.py`.

Modelling conventions:

* A filesystem path is a list of name components (`FPath`), rooted at the
  process working directory.  The library root is the relative directory
  `"./test_db"` (the constructor default), whose normalized component list is
  `["test_db"]`.  `pathlib` joining `base / s` splits `s` on `"/"`, drops empty
  components, and replaces `base` entirely when `s` is absolute (starts with
  `"/"`).
* The filesystem is an association list from paths to entries; an entry is a
  directory or a file holding a key-value mapping (`Dict`).  A `Dict` is an
  insertion-ordered association list, matching Python `dict` semantics for the
  operations the code uses (`clear`, `update`, item assignment, copy).
* The `shelve` module is treated, as the spec directs, as a black-box durable
  associative container: `shelve.open p` yields the mapping stored at file `p`,
  creating an empty file when `p` is absent (its parent directory must exist);
  closing writes the mapping back.  Opening a directory path fails.
* `Path(s).resolve()` raises only for strings the OS path constructor rejects,
  i.e. strings containing an embedded NUL byte; in particular `Path("")`
  resolves (to the working directory) without error.
* Python exceptions are modelled by the `Err` type; a raising method returns
  `Outcome.err e db` carrying the state at raise time, since Python exceptions
  do not roll back side effects already performed.
* Thread locks (`shelf_locks`, `_get_shelf_lock`) and the thread-pool executor
  have no effect on the sequential semantics of any single call and are not
  modelled; every claim below is about sequential behavior.
* `HyllaDB.__post_init__` (library directory creation, empty path index) is
  embedded as the initial state `DB.init`.
-/

/-- A value stored in a shelf: the claims need strings, integers and nested
dictionaries (the latter written by `rewrite_shelf_metadata`). -/
inductive Val where
  | vstr (s : String)
  | vint (n : Int)
  | vdict (d : List (String × Val))

/-- A Python `dict[str, Any]` as an insertion-ordered association list. -/
abbrev Dict := List (String × Val)

/-- Python `d[k] = v`: replace in place when the key exists, else append. -/
def dictSet (d : Dict) (k : String) (v : Val) : Dict :=
  if d.any (fun kv => kv.1 == k) then
    d.map (fun kv => if kv.1 == k then (k, v) else kv)
  else d ++ [(k, v)]

/-- Python `d.update(**m)`: set each key of `m` in turn. -/
def dictUpdate (d : Dict) (m : Dict) : Dict :=
  m.foldl (fun acc kv => dictSet acc kv.1 kv.2) d

/-- Python exceptions raised by the code under study. -/
inductive Err where
  | valueError (msg : String)
  | keyError (msg : String)
  | typeError (msg : String)
  | fileNotFound
  | fileExists
  | isADirectory
  | notADirectory
  | dirNotEmpty
  | invalidArg
deriving DecidableEq

/-- A filesystem path as a component list rooted at the working directory. -/
abbrev FPath := List String

/-- A filesystem entry: a directory, or a file holding a shelve mapping. -/
inductive Entry where
  | dir
  | file (data : Dict)

/-- The filesystem: an association list from paths to entries. -/
abbrev FS := List (FPath × Entry)

/-! ### String and path helpers (char-level, so closed terms reduce by rfl) -/

/-- Split a character list at every occurrence of `sep`. -/
def splitChars (sep : Char) : List Char → List (List Char)
  | [] => [[]]
  | c :: rest =>
    let r := splitChars sep rest
    if c = sep then [] :: r
    else
      match r with
      | h :: t => (c :: h) :: t
      | [] => [[c]]

/-- The non-empty path components of a slash-separated string (pathlib drops
empty components, so `"a//b"` and `"a/b"` coincide and `""` has none). -/
def splitPath (s : String) : List String :=
  ((splitChars '/' s.toList).map String.mk).filter (fun c => !(c == ""))

/-- Whether the string denotes an absolute path (leading slash). -/
def isAbs (s : String) : Bool :=
  match s.toList with
  | c :: _ => c = '/'
  | [] => false

/-- `pathlib` join `base / s`: an absolute right operand replaces the base. -/
def joinPath (base : FPath) (s : String) : FPath :=
  if isAbs s then splitPath s else base ++ splitPath s

/-- `str(Path)` for a relative path: components joined by slashes. -/
def pathStr (p : FPath) : String :=
  String.intercalate "/" p

/-- `"x".replace(".", "/")`: every dot becomes a slash. -/
def dotsToSlashes (s : String) : String :=
  String.mk (s.toList.map (fun c => if c = '.' then '/' else c))

/-- Whether the string contains an embedded NUL byte (the only strings the
Python path constructor rejects). -/
def hasNul (s : String) : Bool :=
  s.toList.any (fun c => c = Char.ofNat 0)

/-- Split a character list at its last dot: `some (before, after)`. -/
def lastDotSplit : List Char → Option (List Char × List Char)
  | [] => none
  | c :: rest =>
    match lastDotSplit rest with
    | some (a, b) => some (c :: a, b)
    | none => if c = '.' then some ([], rest) else none

/-- CPython `PurePath.stem`: the name up to the last dot, provided that dot is
neither leading nor trailing. -/
def nameStem (s : String) : String :=
  match lastDotSplit s.toList with
  | some (a, b) => if 0 < a.length && 0 < b.length then String.mk a else s
  | none => s

/-- CPython `PurePath.suffix`: from the last dot on, under the same proviso. -/
def nameSuffix (s : String) : String :=
  match lastDotSplit s.toList with
  | some (a, b) => if 0 < a.length && 0 < b.length then String.mk ('.' :: b) else ""
  | none => ""

/-- The final component of a path (`Path.name`); empty for the root. -/
def lastName (p : FPath) : String :=
  p.getLastD ""

/-! ### Filesystem primitives -/

/-- Look up the entry stored at a path. -/
def fsFind (p : FPath) : FS → Option Entry
  | [] => none
  | kv :: rest => if kv.1 == p then some kv.2 else fsFind p rest

/-- `Path.exists()`; the working-directory root always exists. -/
def FS.pexists (fs : FS) (p : FPath) : Bool :=
  p == [] || (fsFind p fs).isSome

/-- Whether the path is a directory (the root is). -/
def FS.isDirAt (fs : FS) (p : FPath) : Bool :=
  p == [] ||
    match fsFind p fs with
    | some Entry.dir => true
    | _ => false

/-- `Path.mkdir()` (no `parents`, no `exist_ok`): the target must be fresh and
the parent must be an existing directory. -/
def FS.mkdir (fs : FS) (p : FPath) : Except Err FS :=
  if FS.pexists fs p then .error .fileExists
  else if FS.isDirAt fs p.dropLast then .ok (fs ++ [(p, Entry.dir)])
  else if FS.pexists fs p.dropLast then .error .notADirectory
  else .error .fileNotFound

/-- `shelve.open p`: yield the mapping at `p`, creating an empty file when
absent (parent must be a directory); a directory path cannot be opened. -/
def FS.shelveOpen (fs : FS) (p : FPath) : Except Err (FS × Dict) :=
  match fsFind p fs with
  | some (Entry.file d) => .ok (fs, d)
  | some Entry.dir => .error .isADirectory
  | none =>
    if FS.isDirAt fs p.dropLast then .ok (fs ++ [(p, Entry.file [])], [])
    else .error .fileNotFound

/-- Write the mapping back to an existing file entry (shelve close). -/
def FS.setFile (fs : FS) (p : FPath) (d : Dict) : FS :=
  fs.map (fun kv => if kv.1 == p then (kv.1, Entry.file d) else kv)

/-- `Path.unlink()`: deletes a file; fails on directories and absent paths. -/
def FS.unlink (fs : FS) (p : FPath) : Except Err FS :=
  match fsFind p fs with
  | none => .error .fileNotFound
  | some Entry.dir => .error .isADirectory
  | some (Entry.file _) => .ok (fs.filter (fun kv => !(kv.1 == p)))

/-- `Path.rmdir()`: deletes an empty directory. -/
def FS.rmdir (fs : FS) (p : FPath) : Except Err FS :=
  match fsFind p fs with
  | none => .error .fileNotFound
  | some (Entry.file _) => .error .notADirectory
  | some Entry.dir =>
    if fs.any (fun kv => p.isPrefixOf kv.1 && decide (p.length < kv.1.length)) then
      .error .dirNotEmpty
    else .ok (fs.filter (fun kv => !(kv.1 == p)))

/-- `Path.rename(new)` (`os.rename`): moves the entry and, for a directory,
its whole subtree.  The source must exist; renaming a path to itself is a
no-op; renaming into the own subtree is invalid; for the cases reached by the
code under study the destination is fresh and its parent is a directory. -/
def FS.rename (fs : FS) (oldp newp : FPath) : Except Err FS :=
  if (fsFind oldp fs).isNone then .error .fileNotFound
  else if oldp == newp then .ok fs
  else if oldp.isPrefixOf newp then .error .invalidArg
  else if FS.pexists fs newp then .error .fileExists
  else if !(FS.isDirAt fs newp.dropLast) then .error .fileNotFound
  else .ok (fs.map (fun kv =>
    if oldp.isPrefixOf kv.1 then (newp ++ kv.1.drop oldp.length, kv.2) else kv))

/-! ### The tracked-path set (`self.paths`, a Python `set[Path]`) -/

/-- `p in paths`. -/
def pathMem (p : FPath) : List FPath → Bool
  | [] => false
  | q :: rest => q == p || pathMem p rest

/-- `paths.add(p)` (no duplicate insertion). -/
def pathAdd (l : List FPath) (p : FPath) : List FPath :=
  if pathMem p l then l else l ++ [p]

/-- `paths.remove(p)` assuming membership (the raising variant is inlined at
its use sites). -/
def pathRemove (p : FPath) : List FPath → List FPath
  | [] => []
  | q :: rest => if q == p then rest else q :: pathRemove p rest

/-! ### The database state -/

/-- The state of a `HyllaDB` instance: the library root path, the tracked-path
index `self.paths`, and the on-disk tree. -/
structure DB where
  library : FPath
  paths : List FPath
  fs : FS

/-- The state established by `HyllaDB()` / `__post_init__` with the default
`library_path_str = "./test_db"` and no initial sections: the library
directory exists and the path index is empty. -/
def DB.init : DB :=
  { library := ["test_db"], paths := [], fs := [(["test_db"], Entry.dir)] }

/-- Result of a method call: Python exceptions carry the state at raise time,
since side effects already performed are not rolled back. -/
inductive Outcome (α : Type) where
  | ok (a : α) (db : DB)
  | err (e : Err) (db : DB)

/-- The database state a call ended in, successful or not. -/
def Outcome.stateOf {α : Type} : Outcome α → DB
  | .ok _ db => db
  | .err _ db => db

/-- Whether the call returned normally. -/
def Outcome.isOk {α : Type} : Outcome α → Bool
  | .ok _ _ => true
  | .err _ _ => false

/-- The exception raised, if any. -/
def Outcome.errOf {α : Type} : Outcome α → Option Err
  | .ok _ _ => none
  | .err e _ => some e

/-! ### hylla_utilities.py -/

/-- `get_validated_path_str`: replace dots by slashes, then check the result
can be built as a `Path` (which rejects only NUL bytes; the empty string is
accepted). -/
def get_validated_path_str (path : String) : Except Err String :=
  if hasNul path then
    .error (.valueError ("Invalid path format: " ++ path ++ ". Expected format: parent.target"))
  else .ok (dotsToSlashes path)

/-- `resolved_section_path`: validate, join to the library root, and require
existence on disk.  The error message interpolates the converted string (the
local variable is reassigned before formatting). -/
def resolved_section_path (section_path : String) (library : FPath) (fs : FS) :
    Except Err FPath :=
  match get_validated_path_str section_path with
  | .error e => .error e
  | .ok s =>
    if FS.pexists fs (joinPath library s) then .ok (joinPath library s)
    else .error (.valueError ("Case " ++ s ++ " not found."))

/-- `get_shelf_path`: identical shape, different message. -/
def get_shelf_path (shelf_path : String) (library : FPath) (fs : FS) :
    Except Err FPath :=
  match get_validated_path_str shelf_path with
  | .error e => .error e
  | .ok s =>
    if FS.pexists fs (joinPath library s) then .ok (joinPath library s)
    else .error (.valueError ("Shelf " ++ s ++ " not found."))

/-! ### hylla_db.py: section operations -/

/-- `HyllaDB.create_section(section_path, metadata)`: validate, reject when
tracked or present on disk, `mkdir`, track, then clear-and-write the section's
reserved `metadata.db` container.  (The `isinstance(metadata, dict)` guard is
discharged by typing.) -/
def DB.create_section (db : DB) (section_path : String) (metadata : Dict) :
    Outcome Unit :=
  match get_validated_path_str section_path with
  | .error e => .err e db
  | .ok s =>
    if pathMem (joinPath db.library s) db.paths ||
        FS.pexists db.fs (joinPath db.library s) then
      .err (.valueError ("Section " ++ s ++ " already exists.")) db
    else
      match FS.mkdir db.fs (joinPath db.library s) with
      | .error e => .err e db
      | .ok fs1 =>
        let db1 : DB :=
          { db with fs := fs1, paths := pathAdd db.paths (joinPath db.library s) }
        match FS.shelveOpen db1.fs (joinPath (joinPath db.library s) "metadata.db") with
        | .error e => .err e db1
        | .ok (fs2, _d) =>
          .ok () { db1 with
            fs := FS.setFile fs2 (joinPath (joinPath db.library s) "metadata.db")
                    (dictUpdate ([] : Dict) metadata ) }

/-- `HyllaDB.rewrite_section_name(new_name, section_path)`: resolve the old
section, require it tracked and present, rename the directory to
`library_path / new_name`, update the index for the section itself, then walk
`self.paths` and physically rename every entry whose parent is the old
section path (the walk is embedded below). -/
def renameChildren (oldp newp : FPath) : DB → List FPath → Outcome Unit
  | db, [] => .ok () db
  | db, q :: rest =>
    if q.dropLast == oldp then
      match FS.rename db.fs q (joinPath newp (lastName q)) with
      | .error e => .err e db
      | .ok fs2 =>
        renameChildren oldp newp
          { db with fs := fs2,
                    paths := pathAdd (pathRemove q db.paths) (newp ++ [lastName q]) }
          rest
    else renameChildren oldp newp db rest

/-- The rename operation proper; see `renameChildren` for the cascade loop.
(CPython would additionally raise a set-changed-during-iteration error if a
child rename ever succeeded and the loop continued; that point is unreachable
because the directory rename has already moved every child, so each child
rename raises first.) -/
def DB.rewrite_section_name (db : DB) (new_name : String) (section_path : String) :
    Outcome Unit :=
  match resolved_section_path section_path db.library db.fs with
  | .error e => .err e db
  | .ok p =>
    if !(pathMem p db.paths) || !(FS.pexists db.fs p) then
      .err (.valueError ("Section " ++ section_path ++ " not found.")) db
    else
      match FS.rename db.fs p (joinPath db.library new_name) with
      | .error e => .err e db
      | .ok fs1 =>
        let db1 : DB :=
          { db with fs := fs1,
                    paths := pathAdd (pathRemove p db.paths) (joinPath db.library new_name) }
        renameChildren p (joinPath db.library new_name) db1 db1.paths

/-- `HyllaDB.rewrite_section_metadata(section_path, metadata)`: resolve,
require tracked and present, clear-and-write the `metadata.db` container. -/
def DB.rewrite_section_metadata (db : DB) (section_path : String) (metadata : Dict) :
    Outcome Unit :=
  match resolved_section_path section_path db.library db.fs with
  | .error e => .err e db
  | .ok p =>
    if !(pathMem p db.paths) || !(FS.pexists db.fs p) then
      .err (.valueError ("Section " ++ section_path ++ " not found.")) db
    else
      match FS.shelveOpen db.fs (joinPath p "metadata.db") with
      | .error e => .err e db
      | .ok (fs1, _d) =>
        .ok () { db with
          fs := FS.setFile fs1 (joinPath p "metadata.db") (dictUpdate ([] : Dict) metadata) }

/-- `HyllaDB.remove_section(section_path)`: resolve, require tracked and
present, `rmdir` (which fails unless the directory is empty), untrack. -/
def DB.remove_section (db : DB) (section_path : String) : Outcome Unit :=
  match resolved_section_path section_path db.library db.fs with
  | .error e => .err e db
  | .ok p =>
    if !(pathMem p db.paths) || !(FS.pexists db.fs p) then
      .err (.valueError ("Section " ++ section_path ++ " not found and thus cannot be removed.")) db
    else
      match FS.rmdir db.fs p with
      | .error e => .err e db
      | .ok fs1 => .ok () { db with fs := fs1, paths := pathRemove p db.paths }

/-- The `.db` entries strictly below `p` (`glob("**/*.db")`, snapshot). -/
def globDb (fs : FS) (p : FPath) : List FPath :=
  fs.filterMap (fun kv =>
    if p.isPrefixOf kv.1 && decide (p.length < kv.1.length) &&
        nameSuffix (lastName kv.1) == ".db" then
      some kv.1
    else none)

/-- Unlink each path in turn, keeping the deletions already performed when one
unlink raises. -/
def unlinkEach : DB → List FPath → Outcome Unit
  | db, [] => .ok () db
  | db, p :: rest =>
    match FS.unlink db.fs p with
    | .error e => .err e db
    | .ok fs1 => unlinkEach { db with fs := fs1 } rest

/-- `HyllaDB.clear_section(section_path)`: resolve, require tracked and
present, then unlink every `*.db` file transitively beneath the section.
The tracked-path index is not touched. -/
def DB.clear_section (db : DB) (section_path : String) : Outcome Unit :=
  match resolved_section_path section_path db.library db.fs with
  | .error e => .err e db
  | .ok p =>
    if !(pathMem p db.paths) || !(FS.pexists db.fs p) then
      .err (.valueError ("Section " ++ section_path ++ " not found and thus cannot be clear.")) db
    else unlinkEach db (globDb db.fs p)

/-! ### hylla_db.py: shelf operations -/

/-- Python `f-string` rendering of the optional section argument. -/
def optStr : Option String → String
  | none => "None"
  | some s => s

/-- `HyllaDB.create_shelf(shelf_name, path, metadata)`: reject the reserved
name first; an absent or empty `path` (`if not path`) targets the library
root; the shelf file is `{shelf_name}.db` inside the section; reject when
tracked or present; track, then write the seed data into the fresh file. -/
def DB.create_shelf (db : DB) (shelf_name : String) (path : Option String)
    (metadata : Dict) : Outcome Unit :=
  if shelf_name = "metadata" then
    .err (.valueError "The shelf name metadata is a reserved name in HyllaDB.") db
  else
    match
      (match path with
       | none => Except.ok db.library
       | some s =>
         if s = "" then Except.ok db.library
         else resolved_section_path s db.library db.fs) with
    | .error e => .err e db
    | .ok sec =>
      if pathMem (joinPath sec (shelf_name ++ ".db")) db.paths ||
          FS.pexists db.fs (joinPath sec (shelf_name ++ ".db")) then
        .err (.keyError ("Shelf " ++ shelf_name ++ " already exists in " ++ optStr path ++ ".")) db
      else
        let db1 : DB :=
          { db with paths := pathAdd db.paths (joinPath sec (shelf_name ++ ".db")) }
        match FS.shelveOpen db1.fs (joinPath sec (shelf_name ++ ".db")) with
        | .error e => .err e db1
        | .ok (fs1, d) =>
          .ok () { db1 with
            fs := FS.setFile fs1 (joinPath sec (shelf_name ++ ".db")) (dictUpdate d metadata) }

/-- `HyllaDB.checkout_shelf(shelf_path)`: resolve (which converts every dot of
the argument to a slash), require present and tracked, open and return a copy
of the mapping.  No state is mutated. -/
def DB.checkout_shelf (db : DB) (shelf_path : String) : Outcome Dict :=
  match get_shelf_path shelf_path db.library db.fs with
  | .error e => .err e db
  | .ok p =>
    if !(FS.pexists db.fs p) || !(pathMem p db.paths) then
      .err (.keyError ("Shelf " ++ shelf_path ++ " does not exist.")) db
    else
      match fsFind p db.fs with
      | some (Entry.file d) => .ok d db
      | _ => .err .isADirectory db

/-- `HyllaDB.rewrite_shelf_metadata(shelf_path, metadata)`: resolve, require
present and tracked, then assign the single key `"metadata"`. -/
def DB.rewrite_shelf_metadata (db : DB) (shelf_path : String) (metadata : Dict) :
    Outcome Unit :=
  match get_shelf_path shelf_path db.library db.fs with
  | .error e => .err e db
  | .ok p =>
    if !(FS.pexists db.fs p) || !(pathMem p db.paths) then
      .err (.keyError ("Shelf " ++ shelf_path ++ " does not exist.")) db
    else
      match fsFind p db.fs with
      | some (Entry.file d) =>
        .ok () { db with fs := FS.setFile db.fs p (dictSet d "metadata" (Val.vdict metadata)) }
      | _ => .err .isADirectory db

/-- `HyllaDB.rewrite_shelf_name(new_name, shelf_path)`: resolve, require
present and tracked, rename the file to `{new_name}.db` in the same
directory, update the index. -/
def DB.rewrite_shelf_name (db : DB) (new_name : String) (shelf_path : String) :
    Outcome Unit :=
  match get_shelf_path shelf_path db.library db.fs with
  | .error e => .err e db
  | .ok p =>
    if !(FS.pexists db.fs p) || !(pathMem p db.paths) then
      .err (.keyError ("Shelf " ++ shelf_path ++ " does not exist.")) db
    else
      match FS.rename db.fs p (joinPath p.dropLast (new_name ++ ".db")) with
      | .error e => .err e db
      | .ok fs1 =>
        .ok () { db with fs := fs1,
                         paths := pathAdd (pathRemove p db.paths)
                                    (joinPath p.dropLast (new_name ++ ".db")) }

/-- `HyllaDB.remove_shelf(shelf_path)`: resolve (which already requires disk
existence), re-check existence, then `self.paths.remove` — which raises
`KeyError` when the path was never tracked, BEFORE the file is unlinked. -/
def DB.remove_shelf (db : DB) (shelf_path : String) : Outcome Unit :=
  match get_shelf_path shelf_path db.library db.fs with
  | .error e => .err e db
  | .ok p =>
    if !(FS.pexists db.fs p) then
      .err (.valueError ("Shelf " ++ shelf_path ++ " does not exist.")) db
    else if pathMem p db.paths then
      match FS.unlink db.fs p with
      | .error e => .err e { db with paths := pathRemove p db.paths }
      | .ok fs1 => .ok () { db with paths := pathRemove p db.paths, fs := fs1 }
    else
      .err (.keyError (pathStr p)) db

/-- `HyllaDB.clear_shelf(shelf_path)`: resolve (for the lock only!), then open
`shelve.open(str(shelf_path))` — the ORIGINAL argument string, interpreted
relative to the working directory with no dot conversion — and clear it. -/
def DB.clear_shelf (db : DB) (shelf_path : String) : Outcome Unit :=
  match get_shelf_path shelf_path db.library db.fs with
  | .error e => .err e db
  | .ok _p =>
    match FS.shelveOpen db.fs (joinPath [] shelf_path) with
    | .error e => .err e db
    | .ok (fs1, _d) => .ok () { db with fs := FS.setFile fs1 (joinPath [] shelf_path) [] }

/-! ### hylla_db.py: recursive materialization -/

/-- The value tree produced by `_build_nested_dict`: a shelf checkout at the
leaves, nested name-keyed mappings at directories. -/
inductive NVal where
  | leaf (d : Dict)
  | branch (kvs : List (String × NVal))

/-- `nested_dict[child.stem] = v` over an association list. -/
def nvSet (kvs : List (String × NVal)) (k : String) (v : NVal) :
    List (String × NVal) :=
  if kvs.any (fun kv => kv.1 == k) then
    kvs.map (fun kv => if kv.1 == k then (k, v) else kv)
  else kvs ++ [(k, v)]

/-- Direct children of a directory, in filesystem order (`Path.iterdir`). -/
def childrenOf (fs : FS) (p : FPath) : List FPath :=
  fs.filterMap (fun kv =>
    if kv.1.length == p.length + 1 && p.isPrefixOf kv.1 then some kv.1 else none)

/-- Whether the entry is a file whose suffix is `.db`
(`current_path.is_file() and current_path.suffix == ".db"`). -/
def isDbFileAt (fs : FS) (p : FPath) : Bool :=
  (match fsFind p fs with
   | some (Entry.file _) => true
   | _ => false) && nameSuffix (lastName p) == ".db"

/-- Build the entries of one directory level: evaluate `f` on each child in
order, assigning under the child's stem; the first exception propagates. -/
def collectChildren (f : FPath → Except Err NVal) :
    List FPath → List (String × NVal) → Except Err (List (String × NVal))
  | [], acc => .ok acc
  | c :: rest, acc =>
    match f c with
    | .error e => .error e
    | .ok v => collectChildren f rest (nvSet acc (nameStem (lastName c)) v)

/-- `HyllaDB._build_nested_dict(current_path)`: a `.db` file becomes
`checkout_shelf(str(current_path))` (which re-resolves the stringified path,
dots converted); a directory recurses over its children; anything else is an
empty mapping.  Recursion is by path depth; the fuel argument is a depth
bound, sufficient because each child path is one component longer. -/
def DB.buildNestedDict (db : DB) : Nat → FPath → Except Err NVal
  | 0, _ => .ok (.branch [])
  | fuel + 1, cur =>
    if isDbFileAt db.fs cur then
      match db.checkout_shelf (pathStr cur) with
      | .ok d _ => .ok (.leaf d)
      | .err e _ => .error e
    else if FS.isDirAt db.fs cur then
      match collectChildren (fun c => db.buildNestedDict fuel c)
              (childrenOf db.fs cur) [] with
      | .error e => .error e
      | .ok kvs => .ok (.branch kvs)
    else .ok (.branch [])

/-- A depth bound for the recursion: one more than the longest path stored. -/
def fuelOf (fs : FS) : Nat :=
  fs.foldl (fun n kv => Nat.max n kv.1.length) 0 + 1

/-- `HyllaDB.checkout_section(section_path)`: resolve, require tracked and
present, then materialize the subtree. -/
def DB.checkout_section (db : DB) (section_path : String) : Outcome NVal :=
  match resolved_section_path section_path db.library db.fs with
  | .error e => .err e db
  | .ok p =>
    if !(pathMem p db.paths) || !(FS.pexists db.fs p) then
      .err (.valueError ("Section " ++ section_path ++ " not found.")) db
    else
      match db.buildNestedDict (fuelOf db.fs) p with
      | .error e => .err e db
      | .ok v => .ok v db

/-- `HyllaDB.checkout_library()`: materialize from the library root. -/
def DB.checkout_library (db : DB) : Outcome NVal :=
  match db.buildNestedDict (fuelOf db.fs) db.library with
  | .error e => .err e db
  | .ok v => .ok v db

/-! ### Concrete scenario states used by the claims -/

/-- Library after `create_shelf("sh1", None, {"k": "v"})` on a fresh
database: the file `test_db/sh1.db` exists and is tracked. -/
def dbShelfOne : DB :=
  (DB.init.create_shelf "sh1" none [("k", Val.vstr "v")]).stateOf

/-- Library after `create_section("lib")`. -/
def dbLibA : DB := (DB.init.create_section "lib" []).stateOf

/-- ... then `create_section("lib.s1")`. -/
def dbLibB : DB := (dbLibA.create_section "lib.s1" []).stateOf

/-- ... then `create_shelf("sh1", "lib.s1", {"k": "v"})`. -/
def dbLibC : DB := (dbLibB.create_shelf "sh1" (some "lib.s1") [("k", Val.vstr "v")]).stateOf

/-- ... then `create_shelf("root_sh", None, {"a": 1})`: the library of the
full-materialization scenario. -/
def dbLib : DB := (dbLibC.create_shelf "root_sh" none [("a", Val.vint 1)]).stateOf

/-- Library after `create_section("a")`. -/
def dbSecA : DB := (DB.init.create_section "a" []).stateOf

/-- ... then `create_section("a.b")`. -/
def dbSecAB : DB := (dbSecA.create_section "a.b" []).stateOf

/-- ... then `create_shelf("c", "a.b")`: the cascading-rename scenario. -/
def dbSecABC : DB := (dbSecAB.create_shelf "c" (some "a.b") []).stateOf

/-- The outcome of `rewrite_section_name("z", "a.b")` on that library. -/
def renameOut : Outcome Unit := dbSecABC.rewrite_section_name "z" "a.b"

/-- Library after `create_section("a")` then `create_shelf("s", "a")`: the
clear-section scenario. -/
def dbClrShelf : DB := (dbSecA.create_shelf "s" (some "a") []).stateOf

/-- The outcome of `clear_section("a")` on that library. -/
def clearOut : Outcome Unit := dbClrShelf.clear_section "a"

/-- The state produced by a successful `create_section("x")` on a fresh
database, written out explicitly (used to witness the duplicate-create
theorem). -/
def dbXsec : DB :=
  { library := ["test_db"]
    paths := [["test_db", "x"]]
    fs := [(["test_db"], Entry.dir), (["test_db", "x"], Entry.dir),
           (["test_db", "x", "metadata.db"], Entry.file [])] }

/-- A library whose directory contains a file `test_db/f` created out of
band: present on disk, absent from the tracked-path index. -/
def dbForeign : DB :=
  { library := ["test_db"]
    paths := []
    fs := [(["test_db"], Entry.dir), (["test_db", "f"], Entry.file [])] }

/-! ### Helper lemmas -/

/-- Every character of every group produced by `splitChars` comes from the
input. -/
lemma splitChars_chars (sep : Char) (cs : List Char) :
    ∀ g ∈ splitChars sep cs, ∀ ch ∈ g, ch ∈ cs := by
  induction cs with
  | nil =>
    intro g hg ch hch
    simp [splitChars] at hg
    subst hg
    simp at hch
  | cons c rest ih =>
    intro g hg ch hch
    simp only [splitChars] at hg
    by_cases hc : c = sep
    · rw [if_pos hc] at hg
      rcases List.mem_cons.mp hg with h1 | h2
      · subst h1; simp at hch
      · exact List.mem_cons_of_mem c (ih g h2 ch hch)
    · rw [if_neg hc] at hg
      rcases hr : splitChars sep rest with _ | ⟨h0, t⟩
      · rw [hr] at hg
        simp at hg
        subst hg
        simp at hch
        subst hch
        exact List.mem_cons_self _ _
      · rw [hr] at hg
        rcases List.mem_cons.mp hg with h1 | h2
        · subst h1
          rcases List.mem_cons.mp hch with he | hm
          · subst he; exact List.mem_cons_self _ _
          · have := ih h0 (by rw [hr]; exact List.mem_cons_self h0 t) ch hm
            exact List.mem_cons_of_mem c this
        · have := ih g (by rw [hr]; exact List.mem_cons_of_mem h0 h2) ch hch
          exact List.mem_cons_of_mem c this

/-- The dot-to-slash conversion leaves no dot in its output. -/
lemma dotsToSlashes_no_dot (s : String) : '.' ∉ (dotsToSlashes s).toList := by
  intro hmem
  unfold dotsToSlashes at hmem
  have he : (String.mk (s.toList.map fun c => if c = '.' then '/' else c)).toList
      = s.toList.map fun c => if c = '.' then '/' else c := rfl
  rw [he] at hmem
  rcases List.mem_map.mp hmem with ⟨c, _, hc⟩
  by_cases h : c = '.'
  · rw [if_pos h] at hc; exact absurd hc (by decide)
  · rw [if_neg h] at hc; exact h hc

/-- Hence no component of the split converted path contains a dot. -/
lemma splitPath_no_dot (s : String) :
    ∀ c ∈ splitPath (dotsToSlashes s), '.' ∉ c.toList := by
  intro c hc hdot
  unfold splitPath at hc
  have hc2 := List.mem_of_mem_filter hc
  rcases List.mem_map.mp hc2 with ⟨g, hg, hgc⟩
  subst hgc
  have hin : ('.' : Char) ∈ g := hdot
  exact dotsToSlashes_no_dot s (splitChars_chars '/' (dotsToSlashes s).toList g hg '.' hin)

/-- Key structural fact behind several claims: a path resolved by
`get_shelf_path` never has a dot in any component beyond the library prefix —
the validator rewrote every dot of the address to a slash.  Since every shelf
file created by `create_shelf` ends in `.db`, no address can resolve to a
shelf file. -/
lemma get_shelf_path_no_dot (addr : String) (lib : FPath) (fs : FS) (p : FPath)
    (hg : get_shelf_path addr lib fs = Except.ok p) :
    ∀ c ∈ p.drop lib.length, '.' ∉ c.toList := by
  unfold get_shelf_path at hg
  cases hv : get_validated_path_str addr with
  | error e =>
    rw [hv] at hg
    exact Except.noConfusion hg
  | ok s =>
    rw [hv] at hg
    simp only at hg
    have hs : s = dotsToSlashes addr := by
      unfold get_validated_path_str at hv
      by_cases hn : hasNul addr = true
      · rw [if_pos hn] at hv; exact Except.noConfusion hv
      · rw [if_neg hn] at hv
        cases hv
        rfl
    split at hg
    · cases hg
      subst hs
      intro c hcmem
      unfold joinPath at hcmem
      by_cases ha : isAbs (dotsToSlashes addr) = true
      · rw [if_pos ha] at hcmem
        exact splitPath_no_dot addr c (List.mem_of_mem_drop hcmem)
      · rw [if_neg ha] at hcmem
        rw [List.drop_left] at hcmem
        exact splitPath_no_dot addr c hcmem
    · exact Except.noConfusion hg

/-- A successful `checkout_shelf` resolved its address and found it tracked. -/
lemma checkout_shelf_ok_inv (db : DB) (addr : String) (d : Dict) (db2 : DB)
    (hok : db.checkout_shelf addr = Outcome.ok d db2) :
    ∃ p, get_shelf_path addr db.library db.fs = Except.ok p ∧
      pathMem p db.paths = true := by
  unfold DB.checkout_shelf at hok
  cases hg : get_shelf_path addr db.library db.fs with
  | error e =>
    simp only [hg] at hok
    exact Outcome.noConfusion hok
  | ok p =>
    simp only [hg] at hok
    by_cases hc : (!(FS.pexists db.fs p) || !(pathMem p db.paths)) = true
    · rw [if_pos hc] at hok
      exact Outcome.noConfusion hok
    · have hmem : pathMem p db.paths = true := by
        revert hc
        cases pathMem p db.paths <;> simp
      exact ⟨p, rfl, hmem⟩

/-- A successful `rewrite_shelf_metadata` resolved its address and found it
tracked. -/
lemma rewrite_shelf_metadata_ok_inv (db : DB) (addr : String) (m : Dict)
    (u : Unit) (db2 : DB)
    (hok : db.rewrite_shelf_metadata addr m = Outcome.ok u db2) :
    ∃ p, get_shelf_path addr db.library db.fs = Except.ok p ∧
      pathMem p db.paths = true := by
  unfold DB.rewrite_shelf_metadata at hok
  cases hg : get_shelf_path addr db.library db.fs with
  | error e =>
    simp only [hg] at hok
    exact Outcome.noConfusion hok
  | ok p =>
    simp only [hg] at hok
    by_cases hc : (!(FS.pexists db.fs p) || !(pathMem p db.paths)) = true
    · rw [if_pos hc] at hok
      exact Outcome.noConfusion hok
    · have hmem : pathMem p db.paths = true := by
        revert hc
        cases pathMem p db.paths <;> simp
      exact ⟨p, rfl, hmem⟩

/-- Appending an element makes it a member. -/
lemma pathMem_append_self (l : List FPath) (p : FPath) : pathMem p (l ++ [p]) = true := by
  induction l with
  | nil => simp [pathMem]
  | cons q rest ih => simp [pathMem, ih]

/-- `pathAdd` makes its argument a member. -/
lemma pathMem_pathAdd (l : List FPath) (p : FPath) : pathMem p (pathAdd l p) = true := by
  unfold pathAdd
  split <;> simp_all [pathMem_append_self]

/-- A path returned by `get_shelf_path` exists on disk. -/
lemma get_shelf_path_pexists (sp : String) (lib : FPath) (fs : FS) (p : FPath)
    (h : get_shelf_path sp lib fs = Except.ok p) : FS.pexists fs p = true := by
  unfold get_shelf_path at h
  cases hg : get_validated_path_str sp with
  | error e =>
    simp only [hg] at h
    exact Except.noConfusion h
  | ok s =>
    simp only [hg] at h
    by_cases hc : FS.pexists fs (joinPath lib s) = true
    · rw [if_pos hc] at h
      cases h
      exact hc
    · rw [if_neg hc] at h
      exact Except.noConfusion h

/-! ### The claims -/

/-- C1: the round-trip claim fails on the code.  Creating shelf `sh1` with
seed `{"k": "v"}` succeeds and puts the tracked file at `test_db/sh1.db`,
but checking it out by its logical path raises: `"sh1"` resolves to the
non-existent `test_db/sh1`, `"sh1.db"` to `test_db/sh1/db` (the validator
rewrites the extension dot to a slash).  In general no address whatsoever can
check this shelf out: every resolved path is dot-free past the library
prefix, while the shelf file name contains a dot. -/
theorem checkout_create_roundtrip_unreachable :
    (DB.init.create_shelf "sh1" none [("k", Val.vstr "v")]).isOk = true ∧
    FS.pexists dbShelfOne.fs ["test_db", "sh1.db"] = true ∧
    pathMem ["test_db", "sh1.db"] dbShelfOne.paths = true ∧
    dbShelfOne.checkout_shelf "sh1" =
      Outcome.err (Err.valueError "Shelf sh1 not found.") dbShelfOne ∧
    dbShelfOne.checkout_shelf "sh1.db" =
      Outcome.err (Err.valueError "Shelf sh1/db not found.") dbShelfOne ∧
    ∀ (addr : String) (d : Dict) (dbr : DB),
      dbShelfOne.checkout_shelf addr = Outcome.ok d dbr → False := by
  refine ⟨rfl, rfl, rfl, rfl, rfl, ?_⟩
  intro addr d dbr hok
  obtain ⟨p, hg, hmem⟩ := checkout_shelf_ok_inv dbShelfOne addr d dbr hok
  have hnd := get_shelf_path_no_dot addr dbShelfOne.library dbShelfOne.fs p hg
  have epaths : dbShelfOne.paths = [["test_db", "sh1.db"]] := rfl
  rw [epaths] at hmem
  simp [pathMem] at hmem
  have elib : dbShelfOne.library = ["test_db"] := rfl
  rw [elib] at hnd
  subst hmem
  have hmem2 : "sh1.db" ∈ (["test_db", "sh1.db"] : FPath).drop 1 := by decide
  exact hnd "sh1.db" hmem2 (by decide)

/-- C2: full materialization fails on the code.  Building the claimed library
(section `lib`, subsection `lib.s1` with shelf `sh1 = {"k": "v"}`, root shelf
`root_sh = {"a": 1}`) succeeds, but `checkout_library()` raises instead of
returning the nested mapping: the walk reaches `test_db/lib/metadata.db` and
re-resolves its stringified path through the dot-to-slash validator, yielding
the non-existent `test_db/test_db/lib/metadata/db`. -/
theorem checkout_library_raises_on_any_shelf :
    (DB.init.create_section "lib" []).isOk = true ∧
    (dbLibA.create_section "lib.s1" []).isOk = true ∧
    (dbLibB.create_shelf "sh1" (some "lib.s1") [("k", Val.vstr "v")]).isOk = true ∧
    (dbLibC.create_shelf "root_sh" none [("a", Val.vint 1)]).isOk = true ∧
    dbLib.checkout_library =
      Outcome.err (Err.valueError "Shelf test_db/lib/metadata/db not found.") dbLib :=
  ⟨rfl, rfl, rfl, rfl, rfl⟩

/-- C3: cascading rename fails on the code.  With sections `a`, `a.b` and
shelf `a.b.c`, `rewrite_section_name("z", "a.b")` (i) moves the directory to
`test_db/z` — the library root, not `test_db/a/z` in place — and then
(ii) raises `FileNotFoundError` while renaming the child `test_db/a/b/c.db`,
which the directory rename has already moved; the stale child entry stays in
the tracked set, and checkout at `a.z.c` fails on the resulting state. -/
theorem rewrite_section_name_cascade_fails :
    (DB.init.create_section "a" []).isOk = true ∧
    (dbSecA.create_section "a.b" []).isOk = true ∧
    (dbSecAB.create_shelf "c" (some "a.b") []).isOk = true ∧
    renameOut.errOf = some Err.fileNotFound ∧
    FS.pexists renameOut.stateOf.fs ["test_db", "z"] = true ∧
    FS.pexists renameOut.stateOf.fs ["test_db", "a", "z"] = false ∧
    FS.pexists renameOut.stateOf.fs ["test_db", "a", "b"] = false ∧
    pathMem ["test_db", "a", "b", "c.db"] renameOut.stateOf.paths = true ∧
    (renameOut.stateOf.checkout_shelf "a.z.c").errOf =
      some (Err.valueError "Shelf a/z/c not found.") :=
  ⟨rfl, rfl, rfl, rfl, rfl, rfl, rfl, rfl, rfl⟩

/-- C4: idempotent clear fails on the code.  For the existing shelf
`test_db/sh1.db`, `clear_shelf` raises for every way of addressing it: the
resolver rewrites the dots of the address to slashes, so `"sh1"` resolves to
`test_db/sh1` and `"sh1.db"` to `test_db/sh1/db`, neither of which exists.
(Even were resolution to succeed, the method opens the raw argument string
relative to the working directory rather than the resolved file.) -/
theorem clear_shelf_never_resolves_shelf :
    (DB.init.create_shelf "sh1" none [("k", Val.vstr "v")]).isOk = true ∧
    FS.pexists dbShelfOne.fs ["test_db", "sh1.db"] = true ∧
    dbShelfOne.clear_shelf "sh1" =
      Outcome.err (Err.valueError "Shelf sh1 not found.") dbShelfOne ∧
    dbShelfOne.clear_shelf "sh1.db" =
      Outcome.err (Err.valueError "Shelf sh1/db not found.") dbShelfOne :=
  ⟨rfl, rfl, rfl, rfl⟩

/-- C5: the index-disk consistency invariant is violated by `clear_section`.
From a fresh library, `create_section("a")`, `create_shelf("s", "a")` and
`clear_section("a")` all succeed, yet afterwards `test_db/a/s.db` is still in
the tracked-path set while its file no longer exists on disk. -/
theorem clear_section_leaves_stale_index :
    (DB.init.create_section "a" []).isOk = true ∧
    (dbSecA.create_shelf "s" (some "a") []).isOk = true ∧
    clearOut.isOk = true ∧
    pathMem ["test_db", "a", "s.db"] clearOut.stateOf.paths = true ∧
    FS.pexists clearOut.stateOf.fs ["test_db", "a", "s.db"] = false :=
  ⟨rfl, rfl, rfl, rfl, rfl⟩

/-- C6: creating a shelf named `metadata` always fails with the reserved-name
`ValueError`, whatever the section argument and seed data, and the returned
state is exactly the input state — the guard is the first statement of
`create_shelf`, before any resolution, tracking or write. -/
theorem create_shelf_reserved_name_rejected (db : DB) (path : Option String) (m : Dict) :
    db.create_shelf "metadata" path m =
      Outcome.err (Err.valueError "The shelf name metadata is a reserved name in HyllaDB.") db :=
  rfl

/-- C7: after a successful `create_section(p, m)`, a second
`create_section(p, m2)` fails with the already-exists `ValueError` and leaves
the state (tracked set and on-disk tree) unchanged: the first call tracked
the resolved path, so the second call's membership test raises before any
mutation. -/
theorem create_section_duplicate_rejected (db db2 : DB) (p : String) (m m2 : Dict)
    (h : db.create_section p m = Outcome.ok () db2) :
    ∃ s, get_validated_path_str p = Except.ok s ∧
      db2.create_section p m2 =
        Outcome.err (Err.valueError ("Section " ++ s ++ " already exists.")) db2 := by
  unfold DB.create_section at h
  cases hg : get_validated_path_str p with
  | error e =>
    simp only [hg] at h
    exact Outcome.noConfusion h
  | ok s =>
    simp only [hg] at h
    refine ⟨s, rfl, ?_⟩
    by_cases hc : (pathMem (joinPath db.library s) db.paths ||
        FS.pexists db.fs (joinPath db.library s)) = true
    · rw [if_pos hc] at h
      exact Outcome.noConfusion h
    · rw [if_neg hc] at h
      cases hm : FS.mkdir db.fs (joinPath db.library s) with
      | error e =>
        simp only [hm] at h
        exact Outcome.noConfusion h
      | ok fs1 =>
        simp only [hm] at h
        cases ho : FS.shelveOpen fs1 (joinPath (joinPath db.library s) "metadata.db") with
        | error e =>
          simp only [ho] at h
          exact Outcome.noConfusion h
        | ok pr =>
          obtain ⟨fs2, d⟩ := pr
          simp only [ho] at h
          cases h
          unfold DB.create_section
          simp only [hg]
          simp [pathMem_pathAdd]

/-- Witness for C7 at `p = "x"` on a fresh library: the first create succeeds
and produces `dbXsec`, and the duplicate create fails there. -/
theorem create_section_duplicate_rejected_witness :
    ∃ s, get_validated_path_str "x" = Except.ok s ∧
      dbXsec.create_section "x" [] =
        Outcome.err (Err.valueError ("Section " ++ s ++ " already exists.")) dbXsec :=
  create_section_duplicate_rejected DB.init dbXsec "x" [] [] rfl

/-- C8 counterexample: the claim that `get_validated_path_str` fails with
`InvalidPathFormat` on the empty string is false — `Path("").resolve()`
does not raise, so the empty string is accepted and returned unchanged. -/
theorem empty_path_accepted : get_validated_path_str "" = Except.ok "" :=
  rfl

/-- C8 amended: `get_validated_path_str` rejects only strings the path
constructor cannot accept (an embedded NUL byte); the empty string is
accepted, normalizes to the empty relative path, and downstream resolves to
the library root itself — so `create_section("")` fails with the
already-exists error rather than with `InvalidPathFormat`. -/
theorem empty_path_flows_to_already_exists (db : DB) (m : Dict)
    (h : FS.pexists db.fs db.library = true) :
    get_validated_path_str "" = Except.ok "" ∧
    db.create_section "" m =
      Outcome.err (Err.valueError "Section  already exists.") db := by
  refine ⟨rfl, ?_⟩
  have hj : joinPath db.library "" = db.library := by
    simp [joinPath, splitPath, isAbs, splitChars]
  unfold DB.create_section
  simp only [show get_validated_path_str "" = Except.ok "" from rfl, hj, h]
  simp

/-- Witness for the amended C8 on the fresh library, whose root exists. -/
theorem empty_path_flows_to_already_exists_witness :
    get_validated_path_str "" = Except.ok "" ∧
    DB.init.create_section "" [] =
      Outcome.err (Err.valueError "Section  already exists.") DB.init :=
  empty_path_flows_to_already_exists DB.init [] rfl

/-- C9: the metadata-rewrite frame property is vacuous on the code — for the
existing, tracked shelf `test_db/sh1.db`, `rewrite_shelf_metadata` raises for
every address of it (same dot-mangling as checkout), so it never sets the
`metadata` key at all; in general no address and no metadata argument can
make the call succeed on this library. -/
theorem rewrite_shelf_metadata_never_resolves_shelf :
    (DB.init.create_shelf "sh1" none [("k", Val.vstr "v")]).isOk = true ∧
    dbShelfOne.rewrite_shelf_metadata "sh1" [] =
      Outcome.err (Err.valueError "Shelf sh1 not found.") dbShelfOne ∧
    dbShelfOne.rewrite_shelf_metadata "sh1.db" [] =
      Outcome.err (Err.valueError "Shelf sh1/db not found.") dbShelfOne ∧
    ∀ (addr : String) (m : Dict) (u : Unit) (dbr : DB),
      dbShelfOne.rewrite_shelf_metadata addr m = Outcome.ok u dbr → False := by
  refine ⟨rfl, rfl, rfl, ?_⟩
  intro addr m u dbr hok
  obtain ⟨p, hg, hmem⟩ := rewrite_shelf_metadata_ok_inv dbShelfOne addr m u dbr hok
  have hnd := get_shelf_path_no_dot addr dbShelfOne.library dbShelfOne.fs p hg
  have epaths : dbShelfOne.paths = [["test_db", "sh1.db"]] := rfl
  rw [epaths] at hmem
  simp [pathMem] at hmem
  have elib : dbShelfOne.library = ["test_db"] := rfl
  rw [elib] at hnd
  subst hmem
  have hmem2 : "sh1.db" ∈ (["test_db", "sh1.db"] : FPath).drop 1 := by decide
  exact hnd "sh1.db" hmem2 (by decide)

/-- C10: `remove_shelf` untracks before deleting.  Whenever the address
resolves (so the file exists on disk) but the path is untracked, the call
raises `KeyError` from `paths.remove` and returns the state unchanged — the
file is not deleted; and a successful call implies the path was tracked. -/
theorem remove_shelf_untracked_raises_before_unlink (db : DB) (sp : String) (p : FPath)
    (h1 : get_shelf_path sp db.library db.fs = Except.ok p) :
    (pathMem p db.paths = false →
      db.remove_shelf sp = Outcome.err (Err.keyError (pathStr p)) db) ∧
    (∀ u db2, db.remove_shelf sp = Outcome.ok u db2 → pathMem p db.paths = true) := by
  have hex : FS.pexists db.fs p = true := get_shelf_path_pexists sp db.library db.fs p h1
  constructor
  · intro h2
    unfold DB.remove_shelf
    simp only [h1, hex, h2]
    simp
  · intro u db2 hok
    by_contra h3
    rw [Bool.not_eq_true] at h3
    unfold DB.remove_shelf at hok
    simp only [h1, hex, h3] at hok
    simp at hok

/-- Witness for C10: a file `test_db/f` present on disk but never tracked;
`remove_shelf("f")` raises `KeyError` and leaves the state untouched. -/
theorem remove_shelf_untracked_raises_before_unlink_witness :
    dbForeign.remove_shelf "f" = Outcome.err (Err.keyError "test_db/f") dbForeign :=
  (remove_shelf_untracked_raises_before_unlink dbForeign "f" ["test_db", "f"] rfl).1 rfl
